import Mathlib

/-!
# Verification of the ISO 20022 → MT103 conversion core (`src/server.js`)

This file gives a shallow embedding of the conversion engine of the
repository: the value trees produced by the `xml2js` parser (with
`explicitArray: false`), the text-cleaning rule `clean`, the date
formatter `formatDateYYMMDD`, the MT103 block-4 builder `buildMT103`
(`src/server.js`, lines 27–116) and the root-resolution logic of the
`/convert-text` handler (lines 131–139).

JavaScript semantics is modelled explicitly:
* values are `JVal` (string / object / array / null / undefined);
* truthiness, `||`, optional chaining `?.` and plain property access
  (which throws a `TypeError` on an undefined or null base) are modelled
  by `truthy`, `jsOr`, `oget` and `pget`;
* `String(v)` coercion is `jToString` (`"[object Object]"` for objects,
  comma-joined elements for arrays);
* `new Date(s)` is modelled by `jsDateParse` for the ECMA-262 date-only
  forms `YYYY-MM-DD` and `±YYYYYY-MM-DD` (time-of-day suffixes and the
  implementation-defined fallback formats of `Date.parse` are not
  modelled; calendar validity and the ±100000000-day range check are).

All definitions are executable and structurally recursive so that a
witness can be evaluated on concrete inputs by `decide`.
-/

namespace Iso2MT

/-- Parsed XML value as produced by `xml2js` with `explicitArray: false`:
a node is a string (text content), an object (children, with `_` for the
text and `$` for the attribute object of an attributed element), or an
array (repeated elements); `null` and `undefined` complete the JS value
domain reachable by the conversion code. -/
inductive JVal where
  | undefined : JVal
  | null : JVal
  | str : String → JVal
  | obj : List (String × JVal) → JVal
  | arr : List JVal → JVal
deriving Repr

/-- JS truthiness for the value domain of the model: `undefined`, `null`
and the empty string are falsy; objects and arrays are truthy. -/
def truthy : JVal → Bool
  | .undefined => false
  | .null => false
  | .str s => !(s == "")
  | .obj _ => true
  | .arr _ => true

/-- A value on which property access does not throw (not `undefined`, not `null`). -/
def isDefined : JVal → Bool
  | .undefined => false
  | .null => false
  | _ => true

/-- Underlying property lookup: named properties exist only on objects;
on strings and arrays every named property used by the code is absent. -/
def rawget (v : JVal) (k : String) : JVal :=
  match v with
  | .obj fields => ((fields.lookup k).getD .undefined)
  | _ => .undefined

/-- Optional-chaining access `v?.k`: never throws, yields `undefined`
when the base is `undefined` or `null`. -/
def oget (v : JVal) (k : String) : JVal :=
  match v with
  | .undefined => .undefined
  | .null => .undefined
  | _ => rawget v k

/-- JS exception raised by the modelled code. -/
inductive JsError where
  | typeError : JsError
deriving Repr, DecidableEq

/-- Plain property access `v.k`: throws `TypeError` when the base is
`undefined` or `null`. -/
def pget (v : JVal) (k : String) : Except JsError JVal :=
  match v with
  | .undefined => .error .typeError
  | .null => .error .typeError
  | _ => .ok (rawget v k)

/-- JS `a || b` on values. -/
def jsOr (a b : JVal) : JVal := if truthy a then a else b

/-- JS `a || b` specialised to strings (used for the two date candidates). -/
def strOr (a b : String) : String := if a == "" then b else a

/-- Comma-join of already rendered array elements (JS `Array.prototype.join(",")`). -/
def joinComma : List String → String
  | [] => ""
  | [s] => s
  | s :: rest => s ++ "," ++ joinComma rest

/-- Fuel-indexed JS `String(v)` coercion; array elements render
recursively, with `null` and `undefined` elements rendered empty. The
fuel is consulted only on arrays, so the function reduces on every other
constructor independently of the fuel. -/
def jToStringF (f : Nat) (v : JVal) : String :=
  match v with
  | .undefined => "undefined"
  | .null => "null"
  | .str s => s
  | .obj _ => "[object Object]"
  | .arr l =>
      match f with
      | 0 => ""
      | g + 1 =>
          joinComma (l.map fun w =>
            match w with
            | .undefined => ""
            | .null => ""
            | w => jToStringF g w)

/-- Array-nesting depth of a value, a fuel bound for `jToStringF`. -/
def jDepth : JVal → Nat
  | .arr l => 1 + (l.attach.map fun x => jDepth x.1).foldl max 0
  | _ => 0
decreasing_by
  cases x with
  | mk w hw =>
    have h := List.sizeOf_lt_of_mem hw
    simp only [JVal.arr.sizeOf_spec]
    omega

/-- JS `String(v)` coercion. Only the array case consumes fuel, so the
fuel is computed only there. -/
def jToString (v : JVal) : String :=
  match v with
  | .arr l => jToStringF (jDepth (.arr l)) (.arr l)
  | v => jToStringF 0 v

/-- Case-insensitive character comparison, the canonicalisation used by
the `/NOTPROVIDED/gi` regular expression on its ASCII letters. -/
def eqCI (a b : Char) : Bool := a.toLower == b.toLower

/-- Character list of the placeholder token scrubbed by `clean`. -/
def tokL : List Char := "NOTPROVIDED".data

/-- Whether the pattern is a case-insensitive leading segment of the text. -/
def matchCI : List Char → List Char → Bool
  | [], _ => true
  | _ :: _, [] => false
  | p :: ps, c :: cs => eqCI p c && matchCI ps cs

/-- Whether the text contains the placeholder token case-insensitively
anywhere (scan over all start positions). -/
def containsCIb : List Char → Bool
  | [] => false
  | c :: cs => matchCI tokL (c :: cs) || containsCIb cs

/-- Left-to-right removal scan of `String.replace(/NOTPROVIDED/gi, "")`:
the first argument counts characters still to drop from a match in
progress; at skip 0 a match consumes the current character plus the next
ten. -/
def removeCIAux : Nat → List Char → List Char
  | _, [] => []
  | k + 1, _ :: cs => removeCIAux k cs
  | 0, c :: cs =>
      if matchCI tokL (c :: cs) then removeCIAux 10 cs
      else c :: removeCIAux 0 cs

/-- Removal of all case-insensitive occurrences of the placeholder token,
left to right and without rescanning removed spans, as the JS global
regex replace does. -/
def removeCI (l : List Char) : List Char := removeCIAux 0 l

/-- Surrounding-whitespace trim of `String.prototype.trim` (modelled on
the ASCII whitespace characters recognised by `Char.isWhitespace`). -/
def trimL (l : List Char) : List Char :=
  ((l.dropWhile Char.isWhitespace).reverse.dropWhile Char.isWhitespace).reverse

/-- Cleaning pipeline applied to a string: scrub the placeholder token,
then trim (`src/server.js` line 14). -/
def cleanStr (s : String) : String := ⟨trimL (removeCI s.data)⟩

/-- Function `clean` (`src/server.js` lines 12–15): falsy values become
the empty string; otherwise the value is coerced to a string, the
placeholder token is removed case-insensitively, and the result is
trimmed. -/
def clean (v : JVal) : String :=
  if !truthy v then "" else cleanStr (jToString v)

/-- Decimal digit characters of a natural number (fuel-indexed so the
definition is structurally recursive and kernel-reducible). -/
def natDigitsAux : Nat → Nat → List Char
  | 0, _ => []
  | f + 1, n =>
      if n < 10 then [Nat.digitChar n]
      else natDigitsAux f (n / 10) ++ [Nat.digitChar (n % 10)]

/-- Decimal digit characters of a natural number. -/
def natDigitsL (n : Nat) : List Char := natDigitsAux (n + 1) n

/-- JS `String(i)` for an integral number. -/
def jsIntToStrL (i : Int) : List Char :=
  if i < 0 then '-' :: natDigitsL i.natAbs else natDigitsL i.toNat

/-- JS `String.prototype.padStart(2, "0")`. -/
def padStart2 (l : List Char) : List Char :=
  List.replicate (2 - l.length) '0' ++ l

/-- Gregorian leap-year test (proleptic, as JS UTC getters use). -/
def isLeap (y : Int) : Bool := y % 4 == 0 && (y % 100 != 0 || y % 400 == 0)

/-- Days in a month of the proleptic Gregorian calendar. -/
def daysInMonth (y : Int) (m : Nat) : Nat :=
  if m == 2 then (if isLeap y then 29 else 28)
  else if m == 4 || m == 6 || m == 9 || m == 11 then 30
  else 31

/-- Days from the Unix epoch to a civil date (standard civil-from-days
inverse), used for the ECMA-262 time-value range check. -/
def daysFromCivil (y : Int) (m d : Nat) : Int :=
  let yy : Int := if m ≤ 2 then y - 1 else y
  let era : Int := (if 0 ≤ yy then yy else yy - 399) / 400
  let yoe : Int := yy - era * 400
  let mp : Int := (((m : Int) + 9) % 12)
  let doy : Int := (153 * mp + 2) / 5 + (d : Int) - 1
  let doe : Int := yoe * 365 + yoe / 4 - yoe / 100 + doy
  era * 146097 + doe - 719468

/-- Numeric value of a decimal digit character. -/
def dv (c : Char) : Nat := c.toNat - 48

/-- Calendar validation of parsed date fields: month and day in range
for the proleptic Gregorian calendar and the whole date within the
ECMA-262 ±100000000-day range around the epoch. -/
def validateDate (y : Int) (m d : Nat) : Option (Int × Nat × Nat) :=
  if 1 ≤ m ∧ m ≤ 12 ∧ 1 ≤ d ∧ d ≤ daysInMonth y m ∧
      (daysFromCivil y m d).natAbs ≤ 100000000 then
    some (y, m, d)
  else none

/-- Syntactic part of `new Date(s)` for the ECMA-262 date-only forms:
`YYYY-MM-DD` (four-digit year) and `±YYYYYY-MM-DD` (expanded six-digit
year, `-000000` excluded). -/
def parseDateFields (s : String) : Option (Int × Nat × Nat) :=
  match s.data with
  | [a, b, c, d, '-', e, f, '-', g, h] =>
      if a.isDigit && b.isDigit && c.isDigit && d.isDigit &&
          e.isDigit && f.isDigit && g.isDigit && h.isDigit then
        some (((dv a * 1000 + dv b * 100 + dv c * 10 + dv d : Nat) : Int),
          dv e * 10 + dv f, dv g * 10 + dv h)
      else none
  | [sgn, a, b, c, d, e, f, '-', g, h, '-', i, j] =>
      if (sgn == '+' || sgn == '-') && a.isDigit && b.isDigit && c.isDigit &&
          d.isDigit && e.isDigit && f.isDigit && g.isDigit && h.isDigit &&
          i.isDigit && j.isDigit then
        let yAbs : Nat := dv a * 100000 + dv b * 10000 + dv c * 1000 +
          dv d * 100 + dv e * 10 + dv f
        if sgn == '-' && yAbs == 0 then none
        else
          some ((if sgn == '-' then -(yAbs : Int) else (yAbs : Int)),
            dv g * 10 + dv h, dv i * 10 + dv j)
      else none
  | _ => none

/-- Model of `new Date(s)` restricted to the date-only forms: syntax,
then calendar and range validation; `none` is JS `Invalid Date`. -/
def jsDateParse (s : String) : Option (Int × Nat × Nat) :=
  (parseDateFields s).bind fun t => validateDate t.1 t.2.1 t.2.2

/-- Rendering of the UTC calendar fields exactly as lines 21–24 of
`src/server.js` do: `String(year).slice(2)` then zero-padded two-digit
month and day. -/
def fmtYMD (y : Int) (m d : Nat) : String :=
  ⟨(jsIntToStrL y).drop 2 ++ padStart2 (natDigitsL m) ++ padStart2 (natDigitsL d)⟩

/-- Function `formatDateYYMMDD` (`src/server.js` lines 17–25): falsy
argument or unparseable date yields the empty string, otherwise the
six-character year/month/day rendering. -/
def formatDateYYMMDD (v : JVal) : String :=
  if !truthy v then ""
  else
    match jsDateParse (jToString v) with
    | none => ""
    | some (y, m, d) => fmtYMD y m d

/-- Character membership scan (JS `String.prototype.includes` with a
one-character needle). -/
def hasChar (a : Char) : List Char → Bool
  | [] => false
  | c :: cs => a == c || hasChar a cs

/-- First-occurrence replacement of `.` by `,` (JS
`String.prototype.replace` with a string pattern replaces only the first
occurrence). -/
def replFirstDot : List Char → List Char
  | [] => []
  | c :: cs => if c == '.' then ',' :: cs else c :: replFirstDot cs

/-- Amount formatting of lines 43–46: convert the first decimal point to
a comma and append `,00` exactly when the result contains no comma. -/
def amtFormat (l : List Char) : List Char :=
  let r := replFirstDot l
  if hasChar ',' r then r else r ++ (",00").data

/-- Charge-bearer vocabulary translation of the `switch` on lines
98–110: `DEBT`, `CRED` and `SHAR` are translated, anything else passes
through. -/
def chargeMap (s : String) : String :=
  if s == "DEBT" then "OUR"
  else if s == "CRED" then "BEN"
  else if s == "SHAR" then "SHA"
  else s

/-- JS `Array.prototype.join("\n")` (line 115). -/
def joinNl : List String → String
  | [] => ""
  | [l] => l
  | l :: ls => l ++ "\n" ++ joinNl ls

/-- Split of a character list at newline characters (the inverse of the
newline join on newline-free lines). -/
def splitNlL : List Char → List (List Char)
  | [] => [[]]
  | c :: cs =>
      if c == '\n' then [] :: splitNlL cs
      else
        match splitNlL cs with
        | [] => [[c]]
        | h :: t => (c :: h) :: t

/-- Physical lines of a string. -/
def linesOf (s : String) : List String := (splitNlL s.data).map fun l => ⟨l⟩

/-! ## Field extraction (the let-bindings of `buildMT103`, lines 28–112)

The extractors below use the non-throwing accessor `oget` throughout;
`buildMT103` itself performs the plain accesses of the source through
`pget` and is proved (bridge lemma `buildMT103_ok`) to agree with these
extractors whenever the transaction node is truthy. -/

/-- Line 28: `data.GrpHdr || {}`. -/
def grpHdrOf (data : JVal) : JVal := jsOr (oget data "GrpHdr") (.obj [])

/-- Line 29: `data.CdtTrfTxInf || {}`. -/
def txInfoOf (data : JVal) : JVal := jsOr (oget data "CdtTrfTxInf") (.obj [])

/-- Line 30: `txInfo.Dbtr || {}`. -/
def dbtrOf (data : JVal) : JVal := jsOr (oget (txInfoOf data) "Dbtr") (.obj [])

/-- Line 31: `txInfo.Cdtr || {}`. -/
def cdtrOf (data : JVal) : JVal := jsOr (oget (txInfoOf data) "Cdtr") (.obj [])

/-- Line 32: `grpHdr.SttlmInf || {}`. -/
def sttlmInfOf (data : JVal) : JVal :=
  jsOr (oget (grpHdrOf data) "SttlmInf") (.obj [])

/-- Line 35: `clean(txInfo.PmtId?.InstrId || "")`. -/
def instrIdOf (txInfo : JVal) : String :=
  clean (jsOr (oget (oget txInfo "PmtId") "InstrId") (.str ""))

/-- Line 39: `formatDateYYMMDD(txInfo.IntrBkSttlmDt) || formatDateYYMMDD(grpHdr.CreDtTm)`. -/
def valueDateOf (grpHdr txInfo : JVal) : String :=
  strOr (formatDateYYMMDD (oget txInfo "IntrBkSttlmDt"))
    (formatDateYYMMDD (oget grpHdr "CreDtTm"))

/-- Line 40: `txInfo.IntrBkSttlmAmt?.["$"]?.Ccy || ""`. -/
def currencyOf (txInfo : JVal) : JVal :=
  jsOr (oget (oget (oget txInfo "IntrBkSttlmAmt") "$") "Ccy") (.str "")

/-- Line 41: `txInfo.IntrBkSttlmAmt?._ || txInfo.IntrBkSttlmAmt || ""`. -/
def amountValOf (txInfo : JVal) : JVal :=
  jsOr (jsOr (oget (oget txInfo "IntrBkSttlmAmt") "_") (oget txInfo "IntrBkSttlmAmt"))
    (.str "")

/-- Lines 42–47: the amount is reformatted only when truthy; afterwards
the template interpolation coerces whatever is left to a string. -/
def amountStrOf (txInfo : JVal) : String :=
  let a := amountValOf txInfo
  if truthy a then ⟨amtFormat (jToString a).data⟩ else jToString a

/-- Value part of the `:32A:` line (line 48):
date, currency and amount concatenated with no separators. -/
def a32Of (grpHdr txInfo : JVal) : String :=
  valueDateOf grpHdr txInfo ++ jToString (currencyOf txInfo) ++ amountStrOf txInfo

/-- Line 50: `clean(txInfo.DbtrAcct?.Id?.IBAN || "")`. -/
def dbtrIbanOf (txInfo : JVal) : String :=
  clean (jsOr (oget (oget (oget txInfo "DbtrAcct") "Id") "IBAN") (.str ""))

/-- Agent BIC extraction pattern of lines 65–75:
`clean(node?.FinInstnId?.BICFI || "")`. -/
def bicOf (agt : JVal) : String :=
  clean (jsOr (oget (oget agt "FinInstnId") "BICFI") (.str ""))

/-- Line 77: `clean(txInfo.CdtrAcct?.Id?.Othr?.Id || txInfo.CdtrAcct?.Id?.IBAN || "")`. -/
def cdtrAccountOf (txInfo : JVal) : String :=
  clean (jsOr
    (jsOr (oget (oget (oget (oget txInfo "CdtrAcct") "Id") "Othr") "Id")
      (oget (oget (oget txInfo "CdtrAcct") "Id") "IBAN"))
    (.str ""))

/-- Line 92: `clean(txInfo.RmtInf?.Ustrd || "")`. -/
def remitOf (txInfo : JVal) : String :=
  clean (jsOr (oget (oget txInfo "RmtInf") "Ustrd") (.str ""))

/-- Lines 95–112: the charge code is translated only when the raw
`ChrgBr` node is truthy; otherwise the tag value stays empty. -/
def chargesOf (txInfo : JVal) : String :=
  let c := oget txInfo "ChrgBr"
  if truthy c then chargeMap (clean c) else ""

/-- Optional name and address lines of a party block (lines 52–63 for
the debtor, 79–90 for the creditor): the cleaned name if non-empty,
then every address line that cleans to non-empty, in order. -/
def partyLines (party : JVal) : List String :=
  (let n := clean (jsOr (oget party "Nm") (.str ""))
   if n == "" then [] else [n]) ++
  (let adr := jsOr (oget (oget party "PstlAdr") "AdrLine") (.arr [])
   let arrv : List JVal :=
     match adr with
     | .arr l => l
     | other => if truthy other then [other] else []
   arrv.filterMap fun line =>
     let c := clean line
     if c == "" then none else some c)

/-- Pushed lines of the MT103 array (lines 34–113) for a resolved
transaction node, expressed through the extractors above. -/
def mtLines (data : JVal) : List String :=
  let grpHdr := grpHdrOf data
  let txInfo := txInfoOf data
  let dbtr := dbtrOf data
  let cdtr := cdtrOf data
  let sttlmInf := sttlmInfOf data
  ["\x7b4:",
   ":20:" ++ instrIdOf txInfo,
   ":23B:CRED",
   ":32A:" ++ a32Of grpHdr txInfo,
   ":50K:/" ++ dbtrIbanOf txInfo] ++
  partyLines dbtr ++
  [":52A:" ++ bicOf (oget txInfo "DbtrAgt"),
   ":53A:" ++ bicOf (oget sttlmInf "InstgRmbrsmntAgt"),
   ":54A:" ++ bicOf (oget sttlmInf "InstdRmbrsmntAgt"),
   ":57A:" ++ bicOf (oget txInfo "CdtrAgt"),
   ":59:/" ++ cdtrAccountOf txInfo] ++
  partyLines cdtr ++
  [":70:" ++ remitOf txInfo,
   ":71A:" ++ chargesOf txInfo,
   "-\x7d"]

/-- Function `buildMT103` (`src/server.js` lines 27–116), with JS
exception semantics made explicit: every plain (non-optional) property
access of the source goes through `pget`, which throws on an undefined
or null base; optional-chaining accesses go through `oget`. The pushed
lines are assembled exactly as the source pushes them and joined with
newlines and no trailing newline. -/
def buildMT103 (data : JVal) : Except JsError String := do
  let grpHdr := jsOr (← pget data "GrpHdr") (.obj [])
  let txInfo := jsOr (← pget data "CdtTrfTxInf") (.obj [])
  let dbtr := jsOr (← pget txInfo "Dbtr") (.obj [])
  let cdtr := jsOr (← pget txInfo "Cdtr") (.obj [])
  let sttlmInf := jsOr (← pget grpHdr "SttlmInf") (.obj [])
  let instrId := clean (jsOr (oget (← pget txInfo "PmtId") "InstrId") (.str ""))
  let valueDate := strOr (formatDateYYMMDD (← pget txInfo "IntrBkSttlmDt"))
    (formatDateYYMMDD (← pget grpHdr "CreDtTm"))
  let amtN ← pget txInfo "IntrBkSttlmAmt"
  let currency := jsOr (oget (oget amtN "$") "Ccy") (.str "")
  let amount := jsOr (jsOr (oget amtN "_") amtN) (.str "")
  let amountStr := if truthy amount then ⟨amtFormat (jToString amount).data⟩
    else jToString amount
  let dbtrIban := clean (jsOr (oget (oget (← pget txInfo "DbtrAcct") "Id") "IBAN") (.str ""))
  let dbtrName := clean (jsOr (← pget dbtr "Nm") (.str ""))
  let dbtrAdr := jsOr (oget (← pget dbtr "PstlAdr") "AdrLine") (.arr [])
  let dbtrArr : List JVal :=
    match dbtrAdr with
    | .arr l => l
    | other => if truthy other then [other] else []
  let dbtrAddrLines := dbtrArr.filterMap fun line =>
    let c := clean line
    if c == "" then none else some c
  let dbtrAgent := clean (jsOr (oget (oget (← pget txInfo "DbtrAgt") "FinInstnId") "BICFI") (.str ""))
  let instgAgent := clean (jsOr (oget (oget (← pget sttlmInf "InstgRmbrsmntAgt") "FinInstnId") "BICFI") (.str ""))
  let instdAgent := clean (jsOr (oget (oget (← pget sttlmInf "InstdRmbrsmntAgt") "FinInstnId") "BICFI") (.str ""))
  let cdtrAgent := clean (jsOr (oget (oget (← pget txInfo "CdtrAgt") "FinInstnId") "BICFI") (.str ""))
  let cdtrAcctN ← pget txInfo "CdtrAcct"
  let cdtrAccount := clean (jsOr
    (jsOr (oget (oget (oget cdtrAcctN "Id") "Othr") "Id") (oget (oget cdtrAcctN "Id") "IBAN"))
    (.str ""))
  let cdtrName := clean (jsOr (← pget cdtr "Nm") (.str ""))
  let cdtrAdr := jsOr (oget (← pget cdtr "PstlAdr") "AdrLine") (.arr [])
  let cdtrArr : List JVal :=
    match cdtrAdr with
    | .arr l => l
    | other => if truthy other then [other] else []
  let cdtrAddrLines := cdtrArr.filterMap fun line =>
    let c := clean line
    if c == "" then none else some c
  let remittanceInfo := clean (jsOr (oget (← pget txInfo "RmtInf") "Ustrd") (.str ""))
  let chrgBrN ← pget txInfo "ChrgBr"
  let charges := if truthy chrgBrN then chargeMap (clean chrgBrN) else ""
  pure (joinNl
    (["\x7b4:",
      ":20:" ++ instrId,
      ":23B:CRED",
      ":32A:" ++ valueDate ++ jToString currency ++ amountStr,
      ":50K:/" ++ dbtrIban] ++
     (if dbtrName == "" then [] else [dbtrName]) ++
     dbtrAddrLines ++
     [":52A:" ++ dbtrAgent,
      ":53A:" ++ instgAgent,
      ":54A:" ++ instdAgent,
      ":57A:" ++ cdtrAgent,
      ":59:/" ++ cdtrAccount] ++
     (if cdtrName == "" then [] else [cdtrName]) ++
     cdtrAddrLines ++
     [":70:" ++ remittanceInfo,
      ":71A:" ++ charges,
      "-\x7d"]))

/-- Failure taxonomy of the `/convert-text` handler: the explicit
structure check of line 133 and the catch-all of lines 140–143. -/
inductive ConvError where
  | structureNotFound : ConvError
  | conversionError : ConvError
deriving Repr, DecidableEq

/-- Core of the `/convert-text` handler (lines 131–143): resolve the
transaction node at `result.Document?.FIToFICstmrCdtTrf` or
`result.FIToFICstmrCdtTrf`; a falsy resolution is the
`StructureNotFound` failure, and any JS exception inside the `try` block
is reported as a conversion error. -/
def convertTree (result : JVal) : Except ConvError String :=
  let body : Except JsError (Except ConvError String) := do
    let doc ← pget result "Document"
    let bare ← pget result "FIToFICstmrCdtTrf"
    let data := jsOr (oget doc "FIToFICstmrCdtTrf") bare
    if truthy data then
      let s ← buildMT103 data
      pure (.ok s)
    else
      pure (.error .structureNotFound)
  match body with
  | .error _ => .error .conversionError
  | .ok r => r

/-- Decidable equality of `Except` results, for evaluating the model on
concrete inputs. -/
instance {ε α : Type} [DecidableEq ε] [DecidableEq α] : DecidableEq (Except ε α) :=
  fun x y =>
    match x, y with
    | .ok a, .ok b =>
        if h : a = b then isTrue (by rw [h]) else isFalse (by simp [h])
    | .error a, .error b =>
        if h : a = b then isTrue (by rw [h]) else isFalse (by simp [h])
    | .ok _, .error _ => isFalse (by simp)
    | .error _, .ok _ => isFalse (by simp)

/-- Mandatory MT103 tags of the fixed layout, in output order. -/
def MTAGS : List String :=
  [":20:", ":23B:", ":32A:", ":50K:", ":52A:", ":53A:", ":54A:", ":57A:",
   ":59:", ":70:", ":71A:"]

/-- Whether the pattern list heads the character list. -/
def lstarts : List Char → List Char → Bool
  | [], _ => true
  | _ :: _, [] => false
  | p :: ps, c :: cs => p == c && lstarts ps cs

/-- Mandatory tag a line carries, if any (the first tag of `MTAGS`
heading the line). -/
def tagOf (l : String) : Option String :=
  MTAGS.find? fun t => lstarts t.data l.data

/-- Sequence of mandatory tags carried by a list of lines, in order. -/
def tagSeq (ls : List String) : List String := ls.filterMap tagOf

/-- Whether a string consists exclusively of whitespace and
case-insensitive copies of the placeholder token. -/
def placeholderOnlyAux : Nat → List Char → Bool
  | _ + 1, [] => false
  | k + 1, _ :: cs => placeholderOnlyAux k cs
  | 0, [] => true
  | 0, c :: cs =>
      (Char.isWhitespace c && placeholderOnlyAux 0 cs) ||
      (matchCI tokL (c :: cs) && placeholderOnlyAux 10 cs)

/-- Whether a string is built only from placeholder tokens and whitespace. -/
def placeholderOnly (l : List Char) : Bool := placeholderOnlyAux 0 l

/-- Whether a character can occur (case-insensitively) inside the
placeholder token. -/
def isTokChar (c : Char) : Bool := tokL.any fun t => eqCI t c

/-- Field values that pass through the cleaning rule (plus the
charge-code translation of the cleaned code), together with the optional
party lines. -/
def cleanedVals (data : JVal) : List String :=
  [instrIdOf (txInfoOf data), dbtrIbanOf (txInfoOf data),
   bicOf (oget (txInfoOf data) "DbtrAgt"),
   bicOf (oget (sttlmInfOf data) "InstgRmbrsmntAgt"),
   bicOf (oget (sttlmInfOf data) "InstdRmbrsmntAgt"),
   bicOf (oget (txInfoOf data) "CdtrAgt"),
   cdtrAccountOf (txInfoOf data), remitOf (txInfoOf data),
   chargesOf (txInfoOf data)] ++
  partyLines (dbtrOf data) ++ partyLines (cdtrOf data)

/-! ## Concrete inputs and outputs used by the claims -/

/-- Scenario input tree of the specification's end-to-end example, as
`xml2js` parses it: instruction id `REF123`, settlement date
`2026-01-05`, attributed amount `100` with currency `USD`, debtor IBAN
and name, creditor other-id and name, remittance text, charge bearer
`SHAR`, everything else absent. -/
def c1Tree : JVal :=
  .obj [("CdtTrfTxInf", .obj [
    ("PmtId", .obj [("InstrId", .str "REF123")]),
    ("IntrBkSttlmDt", .str "2026-01-05"),
    ("IntrBkSttlmAmt", .obj [("_", .str "100"), ("$", .obj [("Ccy", .str "USD")])]),
    ("Dbtr", .obj [("Nm", .str "John Doe")]),
    ("DbtrAcct", .obj [("Id", .obj [("IBAN", .str "DE89370400440532013000")])]),
    ("Cdtr", .obj [("Nm", .str "Jane Roe")]),
    ("CdtrAcct", .obj [("Id", .obj [("Othr", .obj [("Id", .str "987654")])])]),
    ("RmtInf", .obj [("Ustrd", .str "Invoice 42")]),
    ("ChrgBr", .str "SHAR")])]

/-- Expected output of the end-to-end scenario, exactly as the
specification quotes it. -/
def c1Expected : String :=
  "\x7b4:\n:20:REF123\n:23B:CRED\n:32A:260105USD100,00\n:50K:/DE89370400440532013000\nJohn Doe\n:52A:\n:53A:\n:54A:\n:57A:\n:59:/987654\nJane Roe\n:70:Invoice 42\n:71A:SHA\n-\x7d"

/-- Counterexample input for C2 as stated: a debtor name that begins
with a mandatory tag marker. -/
def c2Tree : JVal :=
  .obj [("CdtTrfTxInf", .obj [("Dbtr", .obj [("Nm", .str ":23B:x")])])]

/-- Output of the C2 counterexample input. -/
def c2Out : String :=
  "\x7b4:\n:20:\n:23B:CRED\n:32A:\n:50K:/\n:23B:x\n:52A:\n:53A:\n:54A:\n:57A:\n:59:/\n:70:\n:71A:\n-\x7d"

/-- Counterexample input for C4 as stated: the settlement amount is the
bare placeholder string. -/
def c4Tree : JVal :=
  .obj [("CdtTrfTxInf", .obj [("IntrBkSttlmAmt", .str "NOTPROVIDED")])]

/-- Output of the C4 counterexample input. -/
def c4Out : String :=
  "\x7b4:\n:20:\n:23B:CRED\n:32A:NOTPROVIDED,00\n:50K:/\n:52A:\n:53A:\n:54A:\n:57A:\n:59:/\n:70:\n:71A:\n-\x7d"

/-- Witness input for C10: other-id `NOTPROVIDED` with an IBAN present. -/
def c10Tree : JVal :=
  .obj [("CdtTrfTxInf", .obj [
    ("CdtrAcct", .obj [("Id", .obj [
      ("Othr", .obj [("Id", .str "NOTPROVIDED")]),
      ("IBAN", .str "DE00123456789012345678")])])])]

/-! ## Basic lemmas about the embedding -/

/-- Characters of a concatenation. -/
theorem sdata_append (a b : String) : (a ++ b).data = a.data ++ b.data := by
  cases a; cases b; rfl

/-- Rebuilding a string from its characters. -/
theorem smk_data (s : String) : (⟨s.data⟩ : String) = s := by
  cases s; rfl

/-- Associativity of string concatenation. -/
theorem sappend_assoc (a b c : String) : a ++ b ++ c = a ++ (b ++ c) := by
  cases a with
  | mk la =>
    cases b with
    | mk lb =>
      cases c with
      | mk lc => exact congrArg String.mk (List.append_assoc la lb lc)

/-- Binding a successful `Except` computation. -/
theorem ok_bind {ε α β : Type} (a : α) (f : α → Except ε β) :
    (Except.ok a : Except ε α) >>= f = f a := rfl

/-- Pure value of the `Except` monad. -/
theorem pure_eq_ok {ε α : Type} (a : α) :
    (pure a : Except ε α) = Except.ok a := rfl

/-- Plain access on a defined (neither undefined nor null) base never
throws and agrees with the optional-chaining accessor. -/
theorem pget_defined (v : JVal) (hv : isDefined v = true) (k : String) :
    pget v k = .ok (oget v k) := by
  cases v with
  | undefined => simp [isDefined] at hv
  | null => simp [isDefined] at hv
  | str s => rfl
  | obj fs => rfl
  | arr el => rfl

/-- Plain access on an `||`-defaulted object never throws. -/
theorem pget_jsOr_obj (a : JVal) (l : List (String × JVal)) (k : String) :
    pget (jsOr a (.obj l)) k = .ok (oget (jsOr a (.obj l)) k) := by
  by_cases h : truthy a = true
  · cases a with
    | undefined => simp [truthy] at h
    | null => simp [truthy] at h
    | str s => simp [jsOr, h]; rfl
    | obj fs => simp [jsOr, h]; rfl
    | arr el => simp [jsOr, h]; rfl
  · simp [jsOr, h]; rfl

/-- Bridge lemma: once the transaction node is truthy, `buildMT103`
succeeds and returns exactly the newline-join of `mtLines`; the
`TypeError` branch of every plain property access is unreachable. -/
theorem buildMT103_ok (data : JVal) (h : truthy data = true) :
    buildMT103 data = .ok (joinNl (mtLines data)) := by
  have hdef : isDefined data = true := by
    cases data with
    | undefined => simp [truthy] at h
    | null => simp [truthy] at h
    | str s => rfl
    | obj fs => rfl
    | arr el => rfl
  simp only [buildMT103, mtLines, grpHdrOf, txInfoOf, dbtrOf, cdtrOf,
    sttlmInfOf, instrIdOf, valueDateOf, currencyOf, amountValOf,
    amountStrOf, a32Of, dbtrIbanOf, bicOf, cdtrAccountOf, remitOf,
    chargesOf, partyLines, pget_defined data hdef, pget_jsOr_obj, ok_bind,
    pure_eq_ok, List.append_assoc, sappend_assoc]

/-! ## Claim C9: totality of the Formatter on missing data -/

/-- Claim C9: the Formatter is total on missing data — for every input
tree whose resolved transaction node is truthy (as the route handler
guarantees before calling `buildMT103`), `buildMT103` returns a string
and never throws, whatever combination of absent, null, scalar,
attributed or sequence-valued fields lies below the node. -/
theorem C9_formatter_total (data : JVal) (h : truthy data = true) :
    ∃ s : String, buildMT103 data = .ok s :=
  ⟨joinNl (mtLines data), buildMT103_ok data h⟩

/-- Witness for C9 at a concrete input: the empty object resolves every
field to its default and still produces a string. -/
theorem C9_witness : ∃ s : String, buildMT103 (.obj []) = .ok s :=
  C9_formatter_total (.obj []) (by decide)

/-! ## Claim C7: charge-bearer vocabulary -/

/-- Claim C7: the `:71A:` value translates `DEBT`, `CRED` and `SHAR` to
`OUR`, `BEN` and `SHA`; every other cleaned code passes through
unchanged; an absent charge-bearer node renders as the empty string;
and on a truthy node the rendered value is exactly the translation of
the cleaned code. -/
theorem C7_charge_vocabulary :
    chargeMap "DEBT" = "OUR" ∧ chargeMap "CRED" = "BEN" ∧
    chargeMap "SHAR" = "SHA" ∧
    (∀ s : String, s ≠ "DEBT" → s ≠ "CRED" → s ≠ "SHAR" → chargeMap s = s) ∧
    (∀ txInfo : JVal, oget txInfo "ChrgBr" = .undefined → chargesOf txInfo = "") ∧
    (∀ txInfo : JVal, truthy (oget txInfo "ChrgBr") = true →
      chargesOf txInfo = chargeMap (clean (oget txInfo "ChrgBr"))) := by
  refine ⟨rfl, rfl, rfl, ?_, ?_, ?_⟩
  · intro s h1 h2 h3
    simp [chargeMap, h1, h2, h3]
  · intro txInfo h
    simp [chargesOf, h, truthy]
  · intro txInfo h
    simp [chargesOf, h]

/-- Witness for C7: passthrough of the unknown code `XYZZ` and empty
rendering for the absent node, both by applying the claim theorem. -/
theorem C7_witness :
    chargeMap "XYZZ" = "XYZZ" ∧ chargesOf (.obj []) = "" :=
  ⟨C7_charge_vocabulary.2.2.2.1 "XYZZ" (by decide) (by decide) (by decide),
   C7_charge_vocabulary.2.2.2.2.1 (.obj []) rfl⟩

/-! ## Claim C5: lexical amount formatting -/

/-- A list without a decimal point is unchanged by the first-point
replacement. -/
theorem replFirstDot_no_dot (l : List Char) (h : hasChar '.' l = false) :
    replFirstDot l = l := by
  induction l with
  | nil => rfl
  | cons c cs ih =>
    rw [hasChar, Bool.or_eq_false_iff] at h
    have hc : (c == '.') = false := by
      cases hcc : c == '.' with
      | false => rfl
      | true =>
        rw [beq_iff_eq] at hcc
        rw [hcc] at h
        simp at h
    simp [replFirstDot, hc, ih h.2]

/-- Replacement preserves every comma already present. -/
theorem replFirstDot_keeps_comma (l : List Char) (h : hasChar ',' l = true) :
    hasChar ',' (replFirstDot l) = true := by
  induction l with
  | nil => simp [hasChar] at h
  | cons c cs ih =>
    rw [hasChar, Bool.or_eq_true] at h
    by_cases hc : (c == '.') = true
    · simp [replFirstDot, hc, hasChar]
    · simp only [Bool.not_eq_true] at hc
      rcases h with h | h
      · simp [replFirstDot, hc, hasChar, h]
      · simp [replFirstDot, hc, hasChar, ih h]

/-- Replacing an existing decimal point introduces a comma. -/
theorem replFirstDot_dot_comma (l : List Char) (h : hasChar '.' l = true) :
    hasChar ',' (replFirstDot l) = true := by
  induction l with
  | nil => simp [hasChar] at h
  | cons c cs ih =>
    rw [hasChar, Bool.or_eq_true] at h
    by_cases hc : (c == '.') = true
    · simp [replFirstDot, hc, hasChar]
    · simp only [Bool.not_eq_true] at hc
      rcases h with h | h
      · rw [beq_iff_eq] at h
        rw [← h] at hc
        simp at hc
      · simp [replFirstDot, hc, hasChar, ih h]

/-- Claim C5: amount formatting is purely lexical — the three
specification examples hold, a text without a decimal point is left
untouched by the point-to-comma conversion, and `,00` is appended
exactly when the text has no fractional separator (neither a point that
becomes a comma nor a pre-existing comma). -/
theorem C5_amount_lexical :
    amtFormat ("100.5").data = ("100,5").data ∧
    amtFormat ("100").data = ("100,00").data ∧
    amtFormat ("100.00").data = ("100,00").data ∧
    (∀ l : List Char, hasChar '.' l = false → replFirstDot l = l) ∧
    (∀ l : List Char, hasChar '.' l = false → hasChar ',' l = false →
      amtFormat l = l ++ (",00").data) ∧
    (∀ l : List Char, hasChar '.' l = true ∨ hasChar ',' l = true →
      amtFormat l = replFirstDot l) := by
  refine ⟨by decide, by decide, by decide, replFirstDot_no_dot, ?_, ?_⟩
  · intro l hdot hcomma
    rw [amtFormat, replFirstDot_no_dot l hdot]
    simp [hcomma]
  · intro l h
    have hcm : hasChar ',' (replFirstDot l) = true := by
      rcases h with h | h
      · exact replFirstDot_dot_comma l h
      · exact replFirstDot_keeps_comma l h
    rw [amtFormat]
    simp [hcm]

/-- Witness for C5: a separator-free amount gets `,00` appended, by
applying the claim theorem at `47`. -/
theorem C5_witness : amtFormat ("47").data = ("47").data ++ (",00").data :=
  C5_amount_lexical.2.2.2.2.1 ("47").data (by decide) (by decide)

/-! ## Claim C8: missing transaction root -/

/-- Claim C8: when neither the document-wrapped path nor the bare path
yields a (truthy) node, the conversion reports `StructureNotFound` and
never returns an MT103 string, partially built or otherwise. -/
theorem C8_structure_not_found (result : JVal)
    (hdef : isDefined result = true)
    (h1 : truthy (oget (oget result "Document") "FIToFICstmrCdtTrf") = false)
    (h2 : truthy (oget result "FIToFICstmrCdtTrf") = false) :
    convertTree result = .error .structureNotFound ∧
      ∀ s : String, convertTree result ≠ .ok s := by
  have hmain : convertTree result = .error .structureNotFound := by
    simp only [convertTree, pget_defined result hdef, ok_bind, jsOr, h1,
      if_false, Bool.false_eq_true, reduceIte, h2, pure_eq_ok]
  exact ⟨hmain, fun s => by rw [hmain]; simp⟩

/-- Witness for C8: a parsed tree with unrelated content only. -/
theorem C8_witness :
    convertTree (.obj [("Foo", .str "1")]) = .error .structureNotFound ∧
      ∀ s : String, convertTree (.obj [("Foo", .str "1")]) ≠ .ok s :=
  C8_structure_not_found (.obj [("Foo", .str "1")]) (by decide) (by decide)
    (by decide)

/-! ## Claim C1: end-to-end scenario -/

/-- Counterexample for C1 as stated: the scenario output is exactly the
quoted string, but that string has fifteen physical lines, not
fourteen. -/
theorem C1_counterexample :
    buildMT103 c1Tree = .ok c1Expected ∧ (linesOf c1Expected).length ≠ 14 := by
  decide

/-- Claim C1 (amended: the quoted scenario string has fifteen lines, not
fourteen): on the end-to-end scenario input, `buildMT103` returns
exactly the quoted fifteen-line string, whose last character is the
terminator brace — no trailing newline. -/
theorem C1_end_to_end :
    buildMT103 c1Tree = .ok c1Expected ∧
    (linesOf c1Expected).length = 15 ∧
    c1Expected.data.getLast? = some '\x7d' := by
  decide

/-! ## Cleaning-scan lemmas shared by C3 and C10 -/

/-- A removal scan in skipping state behaves like a fresh scan after the
skipped span. -/
theorem removeCIAux_skip (k : Nat) (cs : List Char) :
    removeCIAux k cs = removeCIAux 0 (cs.drop k) := by
  induction k generalizing cs with
  | zero => rw [List.drop_zero]
  | succ k ih =>
    cases cs with
    | nil => rfl
    | cons c rest => rw [removeCIAux, ih, List.drop_succ_cons]

/-- A placeholder check in skipping state accepts only if the fresh
check after the skipped span accepts. -/
theorem placeholderOnlyAux_skip (k : Nat) (cs : List Char)
    (h : placeholderOnlyAux k cs = true) :
    placeholderOnlyAux 0 (cs.drop k) = true := by
  induction k generalizing cs with
  | zero => rw [List.drop_zero]; exact h
  | succ k ih =>
    cases cs with
    | nil => rw [placeholderOnlyAux] at h; cases h
    | cons c rest =>
      rw [placeholderOnlyAux] at h
      rw [List.drop_succ_cons]
      exact ih rest h

/-- The placeholder token does not begin at a whitespace character. -/
theorem ws_no_match (c : Char) (cs : List Char)
    (h : Char.isWhitespace c = true) : matchCI tokL (c :: cs) = false := by
  have ht : tokL = 'N' :: ("OTPROVIDED").data := by decide
  rw [ht, matchCI]
  have : eqCI 'N' c = false := by
    simp only [Char.isWhitespace, Bool.or_eq_true, decide_eq_true_eq] at h
    rcases h with ((h | h) | h) | h <;> subst h <;> decide
  rw [this, Bool.false_and]

/-- After removing the placeholder tokens from a string built only of
placeholder tokens and whitespace, only whitespace characters remain. -/
theorem placeholder_remove_ws :
    ∀ n l, l.length ≤ n → placeholderOnlyAux 0 l = true →
      ∀ c, c ∈ removeCIAux 0 l → Char.isWhitespace c = true := by
  intro n
  induction n with
  | zero =>
    intro l hl _ c hc
    rw [Nat.le_zero, List.length_eq_zero] at hl
    subst hl
    cases hc
  | succ n ih =>
    intro l hl hp c hc
    cases l with
    | nil => cases hc
    | cons a rest =>
      rw [placeholderOnlyAux, Bool.or_eq_true, Bool.and_eq_true,
        Bool.and_eq_true] at hp
      rcases hp with ⟨hws, hrest⟩ | ⟨hm, hrest⟩
      · rw [removeCIAux, ws_no_match a rest hws, if_neg (by simp)] at hc
        rcases List.mem_cons.mp hc with rfl | hc
        · exact hws
        · exact ih rest (Nat.le_of_succ_le_succ (by simpa using hl)) hrest c hc
      · rw [removeCIAux, hm, if_pos rfl, removeCIAux_skip] at hc
        refine ih (rest.drop 10) ?_ (placeholderOnlyAux_skip 10 rest hrest) c hc
        calc (rest.drop 10).length ≤ rest.length := by
              rw [List.length_drop]; omega
          _ ≤ n := Nat.le_of_succ_le_succ (by simpa using hl)

/-- Trimming a list of whitespace characters leaves nothing. -/
theorem trim_allws (l : List Char)
    (h : ∀ c ∈ l, Char.isWhitespace c = true) : trimL l = [] := by
  rw [trimL, List.dropWhile_eq_nil_iff.mpr h]
  rfl

/-- Strings made only of placeholder tokens and whitespace clean to the
empty string. -/
theorem placeholder_clean_empty (s : String)
    (hp : placeholderOnly s.data = true) (hne : s ≠ "") :
    clean (.str s) = "" := by
  have hT : truthy (.str s) = true := by
    rw [truthy, Bool.not_eq_eq_eq_not, Bool.not_true, beq_eq_false_iff_ne]
    exact hne
  rw [clean, hT]
  have : cleanStr s = ⟨[]⟩ := by
    rw [cleanStr]
    rw [trim_allws (removeCI s.data)
      (fun c hc => placeholder_remove_ws s.data.length s.data
        (Nat.le_refl _) hp c hc)]
  simpa using this

/-! ## Claim C10: creditor other-id decided before cleaning -/

/-- Claim C10: when the creditor account's other-identification is
present and non-empty before cleaning but consists only of placeholder
tokens and whitespace, `buildMT103` does not fall back to the creditor
IBAN: the account identifier cleans to empty and the `:59:` line renders
as `:59:/`, because the other-id/IBAN preference (`||`) is decided
before `clean` runs. -/
theorem C10_othr_before_clean (data : JVal) (s : String)
    (hT : truthy data = true)
    (hO : oget (oget (oget (oget (txInfoOf data) "CdtrAcct") "Id") "Othr") "Id"
      = .str s)
    (hne : s ≠ "")
    (hPl : placeholderOnly s.data = true) :
    cdtrAccountOf (txInfoOf data) = "" ∧
    ":59:/" ∈ mtLines data ∧
    buildMT103 data = .ok (joinNl (mtLines data)) := by
  have hTs : truthy (.str s) = true := by
    rw [truthy, Bool.not_eq_eq_eq_not, Bool.not_true, beq_eq_false_iff_ne]
    exact hne
  have hacct : cdtrAccountOf (txInfoOf data) = "" := by
    rw [cdtrAccountOf, hO, jsOr, if_pos (by rw [jsOr, if_pos hTs]; exact hTs),
      jsOr, if_pos hTs]
    exact placeholder_clean_empty s hPl hne
  refine ⟨hacct, ?_, buildMT103_ok data hT⟩
  have h59 : ":59:/" ++ cdtrAccountOf (txInfoOf data) ∈ mtLines data := by
    rw [mtLines]
    simp [List.mem_append]
  rw [hacct] at h59
  have he : (":59:/" : String) ++ "" = ":59:/" := by decide
  rwa [he] at h59

/-- Witness for C10: despite the IBAN being available, the `:59:` line
of the witness tree carries an empty identifier. -/
theorem C10_witness :
    cdtrAccountOf (txInfoOf c10Tree) = "" ∧
    ":59:/" ∈ mtLines c10Tree ∧
    buildMT103 c10Tree = .ok (joinNl (mtLines c10Tree)) :=
  C10_othr_before_clean c10Tree "NOTPROVIDED" (by decide) rfl (by decide)
    (by decide)

/-! ## Claim C3: placeholder scrubbing -/

/-- A case-insensitive match survives appending to the text. -/
theorem matchCI_extend (p z w : List Char) (h : matchCI p z = true) :
    matchCI p (z ++ w) = true := by
  induction p generalizing z with
  | nil => rfl
  | cons a ps ih =>
    cases z with
    | nil => rw [matchCI] at h; cases h
    | cons c cs =>
      rw [matchCI, Bool.and_eq_true] at h
      rw [List.cons_append, matchCI, h.1, ih cs h.2, Bool.and_self]

/-- Token containment survives prepending text. -/
theorem containsCIb_append_right (a t : List Char)
    (h : containsCIb t = true) : containsCIb (a ++ t) = true := by
  induction a with
  | nil => exact h
  | cons c cs ih =>
    rw [List.cons_append, containsCIb]
    rw [ih, Bool.or_true]

/-- Token containment survives appending text. -/
theorem containsCIb_append_left (t b : List Char)
    (h : containsCIb t = true) : containsCIb (t ++ b) = true := by
  induction t with
  | nil => rw [containsCIb] at h; cases h
  | cons c cs ih =>
    rw [containsCIb, Bool.or_eq_true] at h
    rw [List.cons_append, containsCIb, Bool.or_eq_true]
    rcases h with h | h
    · exact Or.inl (by rw [← List.cons_append]; exact matchCI_extend _ _ _ h)
    · exact Or.inr (ih h)

/-- A dropWhile result is reached by deleting a leading segment. -/
theorem dropWhile_is_suffix (p : Char → Bool) (l : List Char) :
    ∃ a, a ++ l.dropWhile p = l := by
  induction l with
  | nil => exact ⟨[], rfl⟩
  | cons c cs ih =>
    cases hp : p c with
    | true =>
      obtain ⟨a, ha⟩ := ih
      exact ⟨c :: a, by rw [List.dropWhile_cons, hp, if_pos rfl,
        List.cons_append, ha]⟩
    | false =>
      exact ⟨[], by rw [List.dropWhile_cons, hp, if_neg (by simp),
        List.nil_append]⟩

/-- Trimming cannot introduce the placeholder token. -/
theorem trim_token_free (l : List Char) (h : containsCIb l = false) :
    containsCIb (trimL l) = false := by
  cases htr : containsCIb (trimL l) with
  | false => rfl
  | true =>
    exfalso
    obtain ⟨a, ha⟩ := dropWhile_is_suffix Char.isWhitespace l
    obtain ⟨u, hu⟩ :=
      dropWhile_is_suffix Char.isWhitespace (l.dropWhile Char.isWhitespace).reverse
    have hdec : l.dropWhile Char.isWhitespace = trimL l ++ u.reverse := by
      have := congrArg List.reverse hu
      rw [List.reverse_append, List.reverse_reverse] at this
      rw [← this]
      rfl
    have h1 : containsCIb (l.dropWhile Char.isWhitespace) = true := by
      rw [hdec]
      exact containsCIb_append_left _ _ htr
    have h2 : containsCIb l = true := by
      rw [← ha]
      exact containsCIb_append_right _ _ h1
    rw [h] at h2
    cases h2

/-- Counterexample for C3 as stated: the input contains the token, yet
removing the middle occurrence splices the surrounding text into a new
occurrence, so the cleaned output still contains the token. -/
theorem C3_counterexample :
    containsCIb ("NOTNOTPROVIDEDPROVIDED").data = true ∧
    clean (.str "NOTNOTPROVIDEDPROVIDED") = "NOTPROVIDED" ∧
    containsCIb (clean (.str "NOTNOTPROVIDEDPROVIDED")).data = true := by
  decide

/-- Claim C3 (amended: deleting an occurrence can splice the adjacent
text into a new occurrence, so the guarantee holds exactly when the
single left-to-right removal pass itself ends token-free): for every
input string whose removal-pass result contains no case-insensitive
occurrence of `NOTPROVIDED`, the cleaned output contains no such
occurrence either. -/
theorem C3_scrub_amended (s : String)
    (h : containsCIb (removeCI s.data) = false) :
    containsCIb (clean (.str s)).data = false := by
  by_cases hne : s = ""
  · subst hne
    decide
  · have hT : truthy (.str s) = true := by
      rw [truthy, Bool.not_eq_eq_eq_not, Bool.not_true, beq_eq_false_iff_ne]
      exact hne
    rw [clean, hT]
    show containsCIb (cleanStr s).data = false
    rw [cleanStr]
    exact trim_token_free _ h

/-- Witness for C3: a string containing the token whose removal pass is
clean, applied to the amended theorem. -/
theorem C3_witness :
    containsCIb (clean (.str " NOTPROVIDEDok ")).data = false :=
  C3_scrub_amended " NOTPROVIDEDok " (by decide)

/-! ## Claim C6: six-digit date rendering -/

/-- Digit rendering does not depend on the fuel once it covers the number. -/
theorem natDigitsAux_congr :
    ∀ n f1 f2, n < f1 → n < f2 → natDigitsAux f1 n = natDigitsAux f2 n := by
  intro n
  induction n using Nat.strong_induction_on with
  | _ n ih =>
    intro f1 f2 h1 h2
    cases f1 with
    | zero => omega
    | succ a =>
      cases f2 with
      | zero => omega
      | succ b =>
        rw [natDigitsAux, natDigitsAux]
        by_cases h10 : n < 10
        · simp [h10]
        · have hdiv : n / 10 < n := Nat.div_lt_self (by omega) (by omega)
          simp only [h10, if_false]
          rw [ih (n / 10) hdiv a a (by omega) (by omega),
            ih (n / 10) hdiv a b (by omega) (by omega)]

/-- One-digit rendering. -/
theorem natDigitsL_small (n : Nat) (h : n < 10) :
    natDigitsL n = [Nat.digitChar n] := by
  rw [natDigitsL, natDigitsAux]
  simp [h]

/-- Digit-peeling step of the rendering. -/
theorem natDigitsL_step (n : Nat) (h : 10 ≤ n) :
    natDigitsL n = natDigitsL (n / 10) ++ [Nat.digitChar (n % 10)] := by
  rw [natDigitsL, natDigitsAux]
  have h10 : ¬ n < 10 := by omega
  simp only [h10, if_false]
  rw [natDigitsL,
    natDigitsAux_congr (n / 10) n (n / 10 + 1)
      (Nat.div_lt_self (by omega) (by omega)) (Nat.lt_succ_self _)]

/-- Four-digit numbers render as their four digits. -/
theorem natDigitsL_four (n : Nat) (h1 : 1000 ≤ n) (h2 : n < 10000) :
    natDigitsL n = [Nat.digitChar (n / 1000), Nat.digitChar (n / 100 % 10),
      Nat.digitChar (n / 10 % 10), Nat.digitChar (n % 10)] := by
  have e2 : n / 10 / 10 = n / 100 := by omega
  have e3 : n / 100 / 10 = n / 1000 := by omega
  rw [natDigitsL_step n (by omega), natDigitsL_step (n / 10) (by omega), e2,
    natDigitsL_step (n / 100) (by omega), e3,
    natDigitsL_small (n / 1000) (by omega)]
  rfl

/-- Two-character zero-padded rendering of a number below one hundred. -/
theorem padStart2_digits (n : Nat) (h : n < 100) :
    padStart2 (natDigitsL n) = [Nat.digitChar (n / 10), Nat.digitChar (n % 10)] := by
  by_cases h10 : n < 10
  · rw [natDigitsL_small n h10, padStart2]
    rw [Nat.div_eq_of_lt h10, Nat.mod_eq_of_lt h10]
    rfl
  · rw [natDigitsL_step n (by omega), natDigitsL_small (n / 10) (by omega),
      padStart2]
    rfl

/-- Upper bound on month lengths. -/
theorem daysInMonth_le (y : Int) (m : Nat) : daysInMonth y m ≤ 31 := by
  rw [daysInMonth]
  split_ifs <;> omega

/-- Field bounds guaranteed by a successful date parse. -/
theorem jsDateParse_bounds (s : String) (y : Int) (m d : Nat)
    (hp : jsDateParse s = some (y, m, d)) :
    1 ≤ m ∧ m ≤ 12 ∧ 1 ≤ d ∧ d ≤ 31 := by
  rw [jsDateParse] at hp
  cases hpf : parseDateFields s with
  | none => rw [hpf] at hp; cases hp
  | some t =>
    rw [hpf] at hp
    simp only [Option.bind] at hp
    rw [validateDate] at hp
    split at hp
    · rename_i hcond
      rw [Option.some.injEq] at hp
      have hy : t.1 = y := congrArg Prod.fst hp
      have hm : t.2.1 = m := congrArg (fun q => q.2.1) hp
      have hd : t.2.2 = d := congrArg (fun q => q.2.2) hp
      subst hy
      subst hm
      subst hd
      have h31 := daysInMonth_le t.1 t.2.1
      omega
    · cases hp

/-- A successful parse needs a non-empty input. -/
theorem jsDateParse_ne_empty (s : String) (y : Int) (m d : Nat)
    (hp : jsDateParse s = some (y, m, d)) : s ≠ "" := by
  intro he
  subst he
  have : jsDateParse "" = none := by decide
  rw [this] at hp
  cases hp

/-- Counterexample for C6 as stated: the three-digit year 500 is
parseable (`0500-01-05` is a conforming four-digit-year date string),
but `String(year).slice(2)` keeps only its last digit, so the output has
five characters, not six. -/
theorem C6_counterexample :
    jsDateParse "0500-01-05" = some (500, 1, 5) ∧
    formatDateYYMMDD (.str "0500-01-05") = "00105" ∧
    (formatDateYYMMDD (.str "0500-01-05")).length ≠ 6 := by
  decide

/-- Claim C6 (amended: the six-digit shape holds for the four-digit
years 1000–9999, not for all parseable years — `slice(2)` keeps the last
two digits only of a four-character year rendering): for every date
string that parses with a year between 1000 and 9999, the formatted
output is exactly six digits — the last two digits of the year, the
two-digit month and the two-digit day, all UTC fields. -/
theorem C6_date_six_digits (s : String) (y : Int) (m d : Nat)
    (hp : jsDateParse s = some (y, m, d)) (hy1 : 1000 ≤ y) (hy2 : y ≤ 9999) :
    (formatDateYYMMDD (.str s)).data =
      [Nat.digitChar (y.toNat / 10 % 10), Nat.digitChar (y.toNat % 10),
       Nat.digitChar (m / 10), Nat.digitChar (m % 10),
       Nat.digitChar (d / 10), Nat.digitChar (d % 10)] ∧
    (formatDateYYMMDD (.str s)).length = 6 := by
  obtain ⟨hm1, hm2, hd1, hd2⟩ := jsDateParse_bounds s y m d hp
  have hne := jsDateParse_ne_empty s y m d hp
  have hT : truthy (.str s) = true := by
    rw [truthy, Bool.not_eq_eq_eq_not, Bool.not_true, beq_eq_false_iff_ne]
    exact hne
  have hstr : jToString (.str s) = s := rfl
  have hfmt : formatDateYYMMDD (.str s) = fmtYMD y m d := by
    rw [formatDateYYMMDD, hT]
    show (match jsDateParse (jToString (.str s)) with
      | none => "" | some (y, m, d) => fmtYMD y m d) = fmtYMD y m d
    rw [hstr, hp]
  have hyn1 : 1000 ≤ y.toNat := by omega
  have hyn2 : y.toNat < 10000 := by omega
  have hint : jsIntToStrL y = natDigitsL y.toNat := by
    rw [jsIntToStrL, if_neg (by omega)]
  have hdata : (formatDateYYMMDD (.str s)).data =
      [Nat.digitChar (y.toNat / 10 % 10), Nat.digitChar (y.toNat % 10),
       Nat.digitChar (m / 10), Nat.digitChar (m % 10),
       Nat.digitChar (d / 10), Nat.digitChar (d % 10)] := by
    rw [hfmt, fmtYMD, hint, natDigitsL_four y.toNat hyn1 hyn2,
      padStart2_digits m (by omega), padStart2_digits d (by omega)]
    rfl
  refine ⟨hdata, ?_⟩
  show (formatDateYYMMDD (.str s)).data.length = 6
  rw [hdata]
  rfl

/-- Witness for C6 at the scenario date: six digits `260105`. -/
theorem C6_witness :
    (formatDateYYMMDD (.str "2026-01-05")).data =
      [Nat.digitChar ((2026 : Int).toNat / 10 % 10),
       Nat.digitChar ((2026 : Int).toNat % 10),
       Nat.digitChar (1 / 10), Nat.digitChar (1 % 10),
       Nat.digitChar (5 / 10), Nat.digitChar (5 % 10)] ∧
    (formatDateYYMMDD (.str "2026-01-05")).length = 6 :=
  C6_date_six_digits "2026-01-05" 2026 1 5 (by decide) (by decide) (by decide)

/-! ## Claim C2: mandatory-tag layout -/

/-- Characters of a newline join with at least two lines. -/
theorem joinNl_data_cons (l r : String) (rest : List String) :
    (joinNl (l :: r :: rest)).data = l.data ++ '\n' :: (joinNl (r :: rest)).data := by
  show ((l ++ "\n") ++ joinNl (r :: rest)).data = _
  rw [sdata_append, sdata_append, List.append_assoc]
  rfl

/-- Splitting a newline-free list of characters yields that single line. -/
theorem splitNl_no_nl (l : List Char) (h : hasChar '\n' l = false) :
    splitNlL l = [l] := by
  induction l with
  | nil => rfl
  | cons c cs ih =>
    rw [hasChar, Bool.or_eq_false_iff] at h
    have hc : (c == '\n') = false := by
      rw [beq_eq_false_iff_ne]
      intro he
      rw [he] at h
      simp at h
    rw [splitNlL, hc, if_neg (by simp), ih h.2]

/-- Splitting after a newline-free leading line peels that line off. -/
theorem splitNl_append (a b : List Char) (h : hasChar '\n' a = false) :
    splitNlL (a ++ '\n' :: b) = a :: splitNlL b := by
  induction a with
  | nil =>
    rw [List.nil_append, splitNlL]
    simp
  | cons c cs ih =>
    rw [hasChar, Bool.or_eq_false_iff] at h
    have hc : (c == '\n') = false := by
      rw [beq_eq_false_iff_ne]
      intro he
      rw [he] at h
      simp at h
    rw [List.cons_append, splitNlL, hc, if_neg (by simp), ih h.2]

/-- Newline-joining newline-free lines and splitting again is the
identity: the physical lines of the output are exactly the pushed
lines. -/
theorem linesOf_joinNl (L : List String) (hne : L ≠ [])
    (h : ∀ l ∈ L, hasChar '\n' l.data = false) :
    linesOf (joinNl L) = L := by
  induction L with
  | nil => exact absurd rfl hne
  | cons l rest ih =>
    cases rest with
    | nil =>
      show (splitNlL (joinNl [l]).data).map (fun c => (⟨c⟩ : String)) = [l]
      rw [joinNl, splitNl_no_nl l.data (h l (by simp))]
      simp [smk_data]
    | cons r rs =>
      show (splitNlL (joinNl (l :: r :: rs)).data).map (fun c => (⟨c⟩ : String))
        = l :: r :: rs
      rw [joinNl_data_cons, splitNl_append _ _ (h l (by simp)), List.map_cons,
        smk_data]
      have hrec := ih (by simp) (fun x hx => h x (by simp [hx]))
      rw [show (splitNlL (joinNl (r :: rs)).data).map (fun c => (⟨c⟩ : String))
        = linesOf (joinNl (r :: rs)) from rfl, hrec]

/-- Tag resolution of a `:20:` line. -/
theorem tagOf_h20 (v : String) : tagOf (":20:" ++ v) = some ":20:" := by
  simp [tagOf, MTAGS, List.find?, lstarts, sdata_append]

/-- Tag resolution of the fixed `:23B:` line. -/
theorem tagOf_h23B : tagOf ":23B:CRED" = some ":23B:" := by decide

/-- Tag resolution of a `:32A:` line. -/
theorem tagOf_h32A (v : String) : tagOf (":32A:" ++ v) = some ":32A:" := by
  simp [tagOf, MTAGS, List.find?, lstarts, sdata_append]

/-- Tag resolution of a `:50K:` line. -/
theorem tagOf_h50K (v : String) : tagOf (":50K:/" ++ v) = some ":50K:" := by
  simp [tagOf, MTAGS, List.find?, lstarts, sdata_append]

/-- Tag resolution of a `:52A:` line. -/
theorem tagOf_h52A (v : String) : tagOf (":52A:" ++ v) = some ":52A:" := by
  simp [tagOf, MTAGS, List.find?, lstarts, sdata_append]

/-- Tag resolution of a `:53A:` line. -/
theorem tagOf_h53A (v : String) : tagOf (":53A:" ++ v) = some ":53A:" := by
  simp [tagOf, MTAGS, List.find?, lstarts, sdata_append]

/-- Tag resolution of a `:54A:` line. -/
theorem tagOf_h54A (v : String) : tagOf (":54A:" ++ v) = some ":54A:" := by
  simp [tagOf, MTAGS, List.find?, lstarts, sdata_append]

/-- Tag resolution of a `:57A:` line. -/
theorem tagOf_h57A (v : String) : tagOf (":57A:" ++ v) = some ":57A:" := by
  simp [tagOf, MTAGS, List.find?, lstarts, sdata_append]

/-- Tag resolution of a `:59:` line. -/
theorem tagOf_h59 (v : String) : tagOf (":59:/" ++ v) = some ":59:" := by
  simp [tagOf, MTAGS, List.find?, lstarts, sdata_append]

/-- Tag resolution of a `:70:` line. -/
theorem tagOf_h70 (v : String) : tagOf (":70:" ++ v) = some ":70:" := by
  simp [tagOf, MTAGS, List.find?, lstarts, sdata_append]

/-- Tag resolution of a `:71A:` line. -/
theorem tagOf_h71A (v : String) : tagOf (":71A:" ++ v) = some ":71A:" := by
  simp [tagOf, MTAGS, List.find?, lstarts, sdata_append]

/-- Envelope markers carry no mandatory tag. -/
theorem tagOf_envelope : tagOf "\x7b4:" = none ∧ tagOf "-\x7d" = none := by
  decide

/-- Last element of the five-chunk layout of the pushed lines. -/
theorem getLast_five_chunks {α : Type} (A P1 B P2 : List α) (x y z : α) :
    (A ++ P1 ++ B ++ P2 ++ [x, y, z]).getLast? = some z := by
  rw [List.getLast?_append_cons]
  rfl

/-- A filter-map producing nothing. -/
theorem filterMap_none {α β : Type} (f : α → Option β) (l : List α)
    (h : ∀ a ∈ l, f a = none) : l.filterMap f = [] := by
  induction l with
  | nil => rfl
  | cons a rest ih =>
    rw [List.filterMap_cons, h a (by simp)]
    exact ih fun x hx => h x (by simp [hx])

/-- Counterexample for C2 as stated: on a resolved transaction whose
debtor name begins with `:23B:`, the output carries two lines headed by
the `:23B:` tag, so the mandatory tags do not each occur exactly once. -/
theorem C2_counterexample :
    buildMT103 c2Tree = .ok c2Out ∧
    (linesOf c2Out).countP (fun l => lstarts (":23B:").data l.data) = 2 ∧
    tagSeq (linesOf c2Out) ≠ MTAGS := by
  decide

/-- Claim C2 (amended: the guarantee needs the pushed lines to be free
of embedded newlines and the optional party name/address lines not to
begin with a mandatory tag marker — a field value such as a debtor name
`:23B:x` otherwise duplicates a tag): for every resolved input tree
satisfying those two conditions, the output's physical lines are exactly
the pushed lines, the eleven mandatory tags head exactly one line each,
in order, the first line is the `{4:` marker and the last line is the
`-}` terminator. -/
theorem C2_tag_layout (data : JVal)
    (hT : truthy data = true)
    (h1 : ∀ l ∈ mtLines data, hasChar '\n' l.data = false)
    (h2 : ∀ l ∈ partyLines (dbtrOf data) ++ partyLines (cdtrOf data),
      tagOf l = none) :
    ∃ out, buildMT103 data = .ok out ∧
      linesOf out = mtLines data ∧
      tagSeq (linesOf out) = MTAGS ∧
      (linesOf out).head? = some "\x7b4:" ∧
      (linesOf out).getLast? = some "-\x7d" := by
  have hne : mtLines data ≠ [] := by
    rw [mtLines]
    simp
  have hlines : linesOf (joinNl (mtLines data)) = mtLines data :=
    linesOf_joinNl (mtLines data) hne h1
  refine ⟨joinNl (mtLines data), buildMT103_ok data hT, hlines, ?_, ?_, ?_⟩
  · rw [hlines, tagSeq, mtLines]
    have hd : ∀ l ∈ partyLines (dbtrOf data), tagOf l = none := fun l hl =>
      h2 l (List.mem_append.mpr (Or.inl hl))
    have hc : ∀ l ∈ partyLines (cdtrOf data), tagOf l = none := fun l hl =>
      h2 l (List.mem_append.mpr (Or.inr hl))
    simp only [List.filterMap_append, filterMap_none tagOf _ hd,
      filterMap_none tagOf _ hc, List.filterMap_cons, tagOf_h20, tagOf_h23B,
      tagOf_h32A, tagOf_h50K, tagOf_h52A, tagOf_h53A, tagOf_h54A, tagOf_h57A,
      tagOf_h59, tagOf_h70, tagOf_h71A, tagOf_envelope.1, tagOf_envelope.2]
    rfl
  · rw [hlines, mtLines]
    rfl
  · rw [hlines, mtLines]
    exact getLast_five_chunks _ _ _ _ _ _ _

/-- Witness for C2 at the end-to-end scenario input. -/
theorem C2_witness :
    ∃ out, buildMT103 c1Tree = .ok out ∧
      linesOf out = mtLines c1Tree ∧
      tagSeq (linesOf out) = MTAGS ∧
      (linesOf out).head? = some "\x7b4:" ∧
      (linesOf out).getLast? = some "-\x7d" :=
  C2_tag_layout c1Tree (by decide) (by decide) (by decide)

/-! ## Claim C4: sentinel never rendered -/

/-- A match for a pattern free of a barrier character cannot reach past
that character. -/
theorem matchCI_barrier_gen (p : List Char) (c : Char) (w : List Char)
    (h : ∀ a ∈ p, eqCI a c = false) :
    ∀ z, matchCI p (z ++ c :: w) = matchCI p z := by
  induction p with
  | nil => intro z; rfl
  | cons a ps ih =>
    intro z
    cases z with
    | nil =>
      rw [List.nil_append]
      have hu : matchCI (a :: ps) (c :: w) = (eqCI a c && matchCI ps w) := rfl
      rw [hu, h a (by simp), Bool.false_and]
      rfl
    | cons b z2 =>
      rw [List.cons_append, matchCI, matchCI,
        ih (fun x hx => h x (by simp [hx])) z2]

/-- Token containment across a non-token barrier character splits. -/
theorem containsCIb_barrier (c : Char) (hc : isTokChar c = false)
    (x y : List Char) :
    containsCIb (x ++ c :: y) = (containsCIb x || containsCIb y) := by
  have htok : ∀ a ∈ tokL, eqCI a c = false := by
    intro a ha
    cases he : eqCI a c with
    | false => rfl
    | true =>
      exfalso
      have : isTokChar c = true := List.any_eq_true.mpr ⟨a, ha, he⟩
      rw [hc] at this
      cases this
  induction x with
  | nil =>
    have hb := matchCI_barrier_gen tokL c y htok []
    rw [List.nil_append] at hb
    have hz : matchCI tokL [] = false := by decide
    have hcy : containsCIb (c :: y)
      = (matchCI tokL (c :: y) || containsCIb y) := rfl
    rw [List.nil_append, hcy, hb, hz]
    rfl
  | cons a x2 ih =>
    have hb := matchCI_barrier_gen tokL c y htok (a :: x2)
    rw [List.cons_append] at hb
    have h1 : containsCIb (a :: (x2 ++ c :: y))
      = (matchCI tokL (a :: (x2 ++ c :: y)) || containsCIb (x2 ++ c :: y)) := rfl
    have h2 : containsCIb (a :: x2)
      = (matchCI tokL (a :: x2) || containsCIb x2) := rfl
    rw [List.cons_append, h1, hb, ih, h2, Bool.or_assoc]

/-- A line made of a token-free part, a barrier character and a
token-free value is token-free. -/
theorem line_token_free (pre : List Char) (c : Char) (v : List Char)
    (hc : isTokChar c = false) (hpre : containsCIb pre = false)
    (hv : containsCIb v = false) : containsCIb (pre ++ c :: v) = false := by
  rw [containsCIb_barrier c hc, hpre, hv]
  rfl

/-- A tag-headed line whose head ends with a barrier character is
token-free when its value part is. -/
theorem headed_line_free (h : String) (pre : List Char) (c : Char)
    (v : String) (hsplit : h.data = pre ++ [c]) (hc : isTokChar c = false)
    (hpre : containsCIb pre = false) (hv : containsCIb v.data = false) :
    containsCIb (h ++ v).data = false := by
  rw [sdata_append, hsplit, List.append_assoc]
  exact line_token_free pre c v.data hc hpre hv

/-- A newline join of token-free lines is token-free. -/
theorem joinNl_token_free (L : List String)
    (h : ∀ l ∈ L, containsCIb l.data = false) :
    containsCIb (joinNl L).data = false := by
  induction L with
  | nil => rfl
  | cons l rest ih =>
    cases rest with
    | nil => exact h l (by simp)
    | cons r rs =>
      rw [joinNl_data_cons,
        containsCIb_barrier '\n' (by decide) l.data (joinNl (r :: rs)).data,
        h l (by simp), ih fun x hx => h x (by simp [hx])]
      rfl

/-- Counterexample for C4 as stated: the amount text is used without
cleaning, so a placeholder amount renders the literal sentinel inside
the `:32A:` line. -/
theorem C4_counterexample :
    buildMT103 c4Tree = .ok c4Out ∧ containsCIb c4Out.data = true := by
  decide

/-- Claim C4 (amended: the amount and currency are the exception — they
are used uncleaned, and cleaning itself can leave a spliced occurrence —
so the guarantee holds when the `:32A:` value is sentinel-free and every
cleaned field value is sentinel-free): for every resolved input tree
satisfying those conditions, the output of `buildMT103` nowhere contains
the literal sentinel `NOTPROVIDED` in any letter case. -/
theorem C4_no_sentinel (data : JVal) (hT : truthy data = true)
    (h32 : containsCIb (a32Of (grpHdrOf data) (txInfoOf data)).data = false)
    (hcv : ∀ v ∈ cleanedVals data, containsCIb v.data = false) :
    ∃ out, buildMT103 data = .ok out ∧ containsCIb out.data = false := by
  refine ⟨joinNl (mtLines data), buildMT103_ok data hT, ?_⟩
  apply joinNl_token_free
  intro l hl
  rw [mtLines] at hl
  rcases List.mem_append.mp hl with h4 | hC
  · rcases List.mem_append.mp h4 with h3 | hP2
    · rcases List.mem_append.mp h3 with h2 | hB
      · rcases List.mem_append.mp h2 with hA | hP1
        · simp only [List.mem_cons, List.not_mem_nil, or_false] at hA
          rcases hA with rfl | rfl | rfl | rfl | rfl
          · decide
          · exact headed_line_free ":20:" [':', '2', '0'] ':' _ (by decide)
              (by decide) (by decide) (hcv _ (by simp [cleanedVals]))
          · decide
          · exact headed_line_free ":32A:" [':', '3', '2', 'A'] ':' _
              (by decide) (by decide) (by decide) h32
          · exact headed_line_free ":50K:/" [':', '5', '0', 'K', ':'] '/' _
              (by decide) (by decide) (by decide)
              (hcv _ (by simp [cleanedVals]))
        · exact hcv l (by
            rw [cleanedVals]
            exact List.mem_append.mpr
              (Or.inl (List.mem_append.mpr (Or.inr hP1))))
      · simp only [List.mem_cons, List.not_mem_nil, or_false] at hB
        rcases hB with rfl | rfl | rfl | rfl | rfl
        · exact headed_line_free ":52A:" [':', '5', '2', 'A'] ':' _ (by decide)
            (by decide) (by decide) (hcv _ (by simp [cleanedVals]))
        · exact headed_line_free ":53A:" [':', '5', '3', 'A'] ':' _ (by decide)
            (by decide) (by decide) (hcv _ (by simp [cleanedVals]))
        · exact headed_line_free ":54A:" [':', '5', '4', 'A'] ':' _ (by decide)
            (by decide) (by decide) (hcv _ (by simp [cleanedVals]))
        · exact headed_line_free ":57A:" [':', '5', '7', 'A'] ':' _ (by decide)
            (by decide) (by decide) (hcv _ (by simp [cleanedVals]))
        · exact headed_line_free ":59:/" [':', '5', '9', ':'] '/' _ (by decide)
            (by decide) (by decide) (hcv _ (by simp [cleanedVals]))
    · exact hcv l (by
        rw [cleanedVals]
        exact List.mem_append.mpr (Or.inr hP2))
  · simp only [List.mem_cons, List.not_mem_nil, or_false] at hC
    rcases hC with rfl | rfl | rfl
    · exact headed_line_free ":70:" [':', '7', '0'] ':' _ (by decide)
        (by decide) (by decide) (hcv _ (by simp [cleanedVals]))
    · exact headed_line_free ":71A:" [':', '7', '1', 'A'] ':' _ (by decide)
        (by decide) (by decide) (hcv _ (by simp [cleanedVals]))
    · decide

/-- Witness for C4 at the end-to-end scenario input. -/
theorem C4_witness :
    ∃ out, buildMT103 c1Tree = .ok out ∧ containsCIb out.data = false :=
  C4_no_sentinel c1Tree (by decide) (by decide) (by decide)

end Iso2MT
